import Mathlib

/-!
# go-libinjection: build automation (`magefiles/magefile.go`) and the detection façade

A shallow embedding of the mage targets that select the backend under test
(`buildTags`, `Test`, `benchArgs`, `Bench`, `BenchCGO`, `BenchDefault`, `BenchAll`)
together with the properties stated about them.

Effects are modelled by explicit trace passing: every call the targets make to the
outside world (`sh.RunV`, `sh.Output`, `os.MkdirAll`, `os.WriteFile`, `fmt.Println`)
appends one `Event` to a log, and the outcome of a call is supplied by a `Host`, which
may answer differently depending on everything that happened before.
-/

namespace Magefile

/-! ## Go values -/

/-- Go `error` values: an error reported by the host, or one wrapped by
`fmt.Errorf("<msg>: %w", err)`. The nil error is `none : Option GoError`. -/
inductive GoError where
  | host (msg : String)
  | wrap (msg : String) (cause : GoError)
deriving DecidableEq, Repr

/-- A command line handed to `sh.RunV` / `sh.Output`: program name and arguments. -/
structure Command where
  cmd : String
  args : List String
deriving DecidableEq, Repr

/-- One interaction with the outside world, with its outcome. -/
inductive Event where
  | runV (c : Command) (err : Option GoError)
  | output (c : Command) (out : String) (err : Option GoError)
  | mkdirAll (path : String) (perm : Nat) (err : Option GoError)
  | writeFile (name : String) (data : String) (perm : Nat) (err : Option GoError)
  | println (line : String)
deriving DecidableEq, Repr

/-- The machine the magefile runs on. The process environment is fixed for the run;
the outcome of every command and file operation may depend on the history so far. -/
structure Host where
  env : String → Option String
  runV : List Event → Command → Option GoError
  output : List Event → Command → String × Option GoError
  mkdirAll : List Event → String → Nat → Option GoError
  writeFile : List Event → String → String → Nat → Option GoError

/-! ## Standard-library functions used by the magefile -/

/-- Go `os.Getenv`: the value of the variable, empty when it is not present. -/
def osGetenv (h : Host) (key : String) : String :=
  (h.env key).getD ""

/-- Go `unicode.ToLower`: ASCII is handled inline (`A`..`Z` are shifted by `a - A`),
every other rune goes through the Unicode case table `To(LowerCase, r)`, which is the
parameter `lowerCase`. -/
def unicodeToLower (lowerCase : Char → Char) (r : Char) : Char :=
  if r.toNat ≤ 0x7F then
    if 'A'.toNat ≤ r.toNat ∧ r.toNat ≤ 'Z'.toNat then
      Char.ofNat (r.toNat + ('a'.toNat - 'A'.toNat))
    else r
  else lowerCase r

/-- Go `strings.ToLower`: every rune mapped by `unicode.ToLower`. A string is a sequence
of Unicode scalar values. -/
def stringsToLower (lowerCase : Char → Char) (s : String) : String :=
  ⟨s.data.map (unicodeToLower lowerCase)⟩

/-- Go `strings.Join`. -/
def stringsJoin (elems : List String) (sep : String) : String :=
  sep.intercalate elems

/-- Go `fmt.Sprintf(pre + "%d", n)` for a literal text `pre` without verbs. -/
def sprintfD (pre : String) (n : Int) : String :=
  pre ++ toString n

/-- Call of `sh.RunV(cmd, args...)`: returns the error and the extended log. -/
def shRunV (h : Host) (log : List Event) (cmd : String) (args : List String) :
    Option GoError × List Event :=
  let err := h.runV log ⟨cmd, args⟩
  (err, log ++ [Event.runV ⟨cmd, args⟩ err])

/-- The source function `buildTags`. -/
def buildTags (lowerCase : Char → Char) (h : Host) : String :=
  let mode := stringsToLower lowerCase (osGetenv h "WASI_TEST_MODE")
  let tags : List String := []
  let tags := if mode = "cgo" then tags ++ ["libinjection_cgo"] else tags
  stringsJoin tags ","

/-- The source function `Test`: runs unit tests, with wazero by default. -/
def Test (lowerCase : Char → Char) (h : Host) (log : List Event) :
    Option GoError × List Event :=
  let mode := stringsToLower lowerCase (osGetenv h "WASI_TEST_MODE")
  if mode ≠ "tinygo" then
    shRunV h log "go" ["test", "-v", "-timeout=20m", "-tags", buildTags lowerCase h, "./..."]
  else
    shRunV h log "tinygo" ["test", "-target=wasi", "-v", "-tags", buildTags lowerCase h, "./..."]

/-- The source type `benchMode`, an `int`. -/
abbrev benchMode := Int

/-- First constant of the `iota` block. -/
def benchModeWazero : benchMode := 0

/-- Second constant of the `iota` block. -/
def benchModeCGO : benchMode := 1

/-- Third constant of the `iota` block. -/
def benchModeDefault : benchMode := 2

/-- The source function `benchArgs`. -/
def benchArgs (pkg : String) (count : Int) (mode : benchMode) : List String :=
  let args := ["test", "-bench=.", "-run=^$", "-v", "-timeout=60m"]
  let args := if count > 0 then args ++ [sprintfD "-count=" count] else args
  let args :=
    if mode = benchModeCGO then args ++ ["-tags=libinjection_cgo"]
    else if mode = benchModeDefault then args ++ ["-tags=libinjection_bench_default"]
    else args
  args ++ [pkg]

/-- The source function `Bench`: benchmarks in the default configuration, using wazero. -/
def Bench (h : Host) (log : List Event) : Option GoError × List Event :=
  shRunV h log "go" (benchArgs "./..." 1 benchModeWazero)

/-- The source function `BenchCGO`: benchmarks with the library accessed using cgo. -/
def BenchCGO (h : Host) (log : List Event) : Option GoError × List Event :=
  shRunV h log "go" (benchArgs "./..." 1 benchModeCGO)

/-- The source function `BenchDefault`. -/
def BenchDefault (h : Host) (log : List Event) : Option GoError × List Event :=
  shRunV h log "go" (benchArgs "./..." 1 benchModeDefault)

/-- ASCII upper-casing of a string, used to state case-insensitivity. -/
def asciiUpper (s : String) : String :=
  ⟨s.data.map Char.toUpper⟩

/-- An argument that sets the build tags of the go tool: the flag `tags` written with
one or two dashes, either alone (its value is the next argument) or followed by
`=value`. -/
def isTagsArg (a : String) : Bool :=
  a.data == "-tags".data || a.data == "--tags".data ||
    "-tags=".data.isPrefixOf a.data || "--tags=".data.isPrefixOf a.data

/-- An argument the go tool reads as a flag rather than as a package: at least two
characters, the first one a dash. Every other argument is a package. -/
def isFlagArg (a : String) : Bool :=
  match a.data with
  | '-' :: _ :: _ => true
  | _ => false

/-- A host on which no environment variable is set and every command and file
operation succeeds, commands printing nothing. -/
def quietHost : Host where
  env := fun _ => none
  runV := fun _ _ => none
  output := fun _ _ => ("", none)
  mkdirAll := fun _ _ _ => none
  writeFile := fun _ _ _ _ => none

end Magefile

namespace Detection

/-! ## Detection façade

The façade and the backend adapters are not part of the build automation file; they are
modelled from the specification (§3, §4.3, §4.4, §7). -/

/-- Modelled from the spec: `BackendKind` of §3, the two ways of reaching the library;
the type itself is missing from the sources. -/
inductive BackendKind where
  | EmbeddedInterpreter
  | NativeForeignCall
deriving DecidableEq, Repr

/-- Modelled from the spec: `DetectionResult` of §3, `{ matched, fingerprint }`, the
fingerprint being optional; the type itself is missing from the sources. -/
structure DetectionResult where
  matched : Bool
  fingerprint : Option (List UInt8)
deriving DecidableEq, Repr

/-- Modelled from the spec: the causes of §7 that a call can fail with at the foreign
boundary; the type itself is missing from the sources. -/
inductive Cause where
  | OutOfMemory
  | OutOfBounds
  | PoolExhausted
deriving DecidableEq, Repr

/-- Modelled from the spec: `BackendFailure` of §7, which always carries the originating
cause; the type itself is missing from the sources. -/
inductive DetectError where
  | BackendFailure (cause : Cause)
deriving DecidableEq, Repr

/-- Modelled from the spec: the capability contract of a Backend Adapter (§4.3), whose
implementations are missing from the sources. Submitting an input yields the raw result
of the exported function (a boolean flag and, for SQL injection, the fingerprint it
reports, if any) or fails with a cause. What the exported functions compute is left
open, as in the specification. -/
structure Backend where
  kind : BackendKind
  invokeSQLi : List UInt8 → Except Cause (Bool × Option (List UInt8))
  invokeXSS : List UInt8 → Except Cause Bool

/-- Modelled from the spec: the façade operation `detectSQLi` of §4.4, missing from the
sources: `matched=false` for empty input; otherwise the input is submitted to the
selected backend and the raw result decoded, a failure being surfaced as
`BackendFailure` with its cause. -/
def detectSQLi (b : Backend) (input : List UInt8) : Except DetectError DetectionResult :=
  if input = [] then Except.ok ⟨false, none⟩
  else
    match b.invokeSQLi input with
    | Except.error cause => Except.error (DetectError.BackendFailure cause)
    | Except.ok (flag, fingerprint) => Except.ok ⟨flag, fingerprint⟩

/-- Modelled from the spec: the façade operation `detectXSS` of §4.4, missing from the
sources: same shape as `detectSQLi`, no fingerprint. -/
def detectXSS (b : Backend) (input : List UInt8) : Except DetectError DetectionResult :=
  if input = [] then Except.ok ⟨false, none⟩
  else
    match b.invokeXSS input with
    | Except.error cause => Except.error (DetectError.BackendFailure cause)
    | Except.ok flag => Except.ok ⟨flag, none⟩

end Detection

namespace Magefile

/-! ## Backend selection by `WASI_TEST_MODE` -/

/-- Joining no elements gives the empty string. -/
theorem stringsJoin_nil (sep : String) : stringsJoin [] sep = "" := by
  simp [stringsJoin, String.intercalate]

/-- Joining a single element gives that element, whatever the separator. -/
theorem stringsJoin_singleton (a sep : String) : stringsJoin [a] sep = a := by
  simp [stringsJoin, String.intercalate, String.intercalate.go]

/-- Lower-casing the empty string gives the empty string. -/
theorem stringsToLower_empty (lowerCase : Char → Char) : stringsToLower lowerCase "" = "" := by
  rfl

/-- The value of `buildTags` in terms of the lower-cased mode. -/
theorem buildTags_eq (lowerCase : Char → Char) (h : Host) :
    buildTags lowerCase h =
      if stringsToLower lowerCase (osGetenv h "WASI_TEST_MODE") = "cgo" then "libinjection_cgo"
      else "" := by
  unfold buildTags
  by_cases hm : stringsToLower lowerCase (osGetenv h "WASI_TEST_MODE") = "cgo"
  · simp [hm, stringsJoin_singleton]
  · simp [hm, stringsJoin_nil]

/-- An unset variable and a variable set to the empty string read the same. -/
theorem osGetenv_unset_or_empty (h : Host) (key : String)
    (henv : h.env key = none ∨ h.env key = some "") : osGetenv h key = "" := by
  rcases henv with he | he <;> simp [osGetenv, he]

/-- On ASCII, lower-casing after upper-casing is lower-casing. -/
theorem unicodeToLower_ascii (lowerCase : Char → Char) (n : Nat) (hn : n ≤ 0x7F) :
    unicodeToLower lowerCase (Char.toUpper (Char.ofNat n)) =
      unicodeToLower lowerCase (Char.ofNat n) := by
  have key : ∀ m : Fin 128,
      unicodeToLower lowerCase (Char.toUpper (Char.ofNat m.val)) =
        unicodeToLower lowerCase (Char.ofNat m.val) := by
    intro m
    have h1 : (Char.ofNat m.val).toNat ≤ 0x7F := by revert m; decide
    have h2 : (Char.toUpper (Char.ofNat m.val)).toNat ≤ 0x7F := by revert m; decide
    simp only [unicodeToLower, h1, h2, if_true]
    revert m
    decide
  exact key ⟨n, by omega⟩

/-- ASCII upper-casing a rune does not change its lower-casing. -/
theorem unicodeToLower_toUpper (lowerCase : Char → Char) (c : Char) :
    unicodeToLower lowerCase (Char.toUpper c) = unicodeToLower lowerCase c := by
  by_cases hc : c.toNat ≤ 0x7F
  · have := unicodeToLower_ascii lowerCase c.toNat hc
    simpa [Char.ofNat_toNat] using this
  · have hu : Char.toUpper c = c := by
      simp only [Char.toUpper]
      split
      · rename_i hr
        have h2 := hr.2
        exact absurd (by omega) hc
      · rfl
    rw [hu]

/-- ASCII upper-casing a string does not change its lower-casing. -/
theorem stringsToLower_asciiUpper (lowerCase : Char → Char) (s : String) :
    stringsToLower lowerCase (asciiUpper s) = stringsToLower lowerCase s := by
  simp [stringsToLower, asciiUpper, List.map_map, Function.comp_def, unicodeToLower_toUpper]

/-- C1: when `WASI_TEST_MODE` is unset or empty, `buildTags` returns the empty string;
`Test` then runs `go test -v -timeout=20m -tags "" ./...` and nothing else, and no
argument of the command it runs is the build tag `libinjection_cgo`. -/
theorem buildTags_default_is_wazero (lowerCase : Char → Char) (h : Host) (log : List Event)
    (henv : h.env "WASI_TEST_MODE" = none ∨ h.env "WASI_TEST_MODE" = some "") :
    buildTags lowerCase h = "" ∧
    Test lowerCase h log =
      (h.runV log ⟨"go", ["test", "-v", "-timeout=20m", "-tags", "", "./..."]⟩,
       log ++ [Event.runV ⟨"go", ["test", "-v", "-timeout=20m", "-tags", "", "./..."]⟩
          (h.runV log ⟨"go", ["test", "-v", "-timeout=20m", "-tags", "", "./..."]⟩)]) ∧
    (∀ c err, Event.runV c err ∈ (Test lowerCase h []).2 → "libinjection_cgo" ∉ c.args) := by
  have hget : osGetenv h "WASI_TEST_MODE" = "" := osGetenv_unset_or_empty h _ henv
  have hmode : stringsToLower lowerCase (osGetenv h "WASI_TEST_MODE") = "" := by
    rw [hget, stringsToLower_empty]
  have hne1 : ("" : String) ≠ "cgo" := by decide
  have hne2 : ("" : String) ≠ "tinygo" := by decide
  have htags : buildTags lowerCase h = "" := by
    rw [buildTags_eq, hmode, if_neg hne1]
  have htest : ∀ l : List Event, Test lowerCase h l =
      (h.runV l ⟨"go", ["test", "-v", "-timeout=20m", "-tags", "", "./..."]⟩,
       l ++ [Event.runV ⟨"go", ["test", "-v", "-timeout=20m", "-tags", "", "./..."]⟩
          (h.runV l ⟨"go", ["test", "-v", "-timeout=20m", "-tags", "", "./..."]⟩)]) := by
    intro l
    unfold Test
    simp only [hmode, htags, shRunV]
    rw [if_pos hne2]
  refine ⟨htags, htest log, ?_⟩
  intro c err hmem
  rw [htest []] at hmem
  simp only [List.nil_append, List.mem_singleton, Event.runV.injEq] at hmem
  rw [hmem.1]
  decide

/-- C1 at the quiet host, where `WASI_TEST_MODE` is unset. -/
theorem buildTags_default_is_wazero_witness :
    (quietHost.env "WASI_TEST_MODE" = none ∨ quietHost.env "WASI_TEST_MODE" = some "") ∧
    buildTags id quietHost = "" ∧
    Test id quietHost [] =
      (none, [Event.runV ⟨"go", ["test", "-v", "-timeout=20m", "-tags", "", "./..."]⟩ none]) :=
  ⟨Or.inl rfl, (buildTags_default_is_wazero id quietHost [] (Or.inl rfl)).1,
    (buildTags_default_is_wazero id quietHost [] (Or.inl rfl)).2.1⟩

/-- C2: for every value of `WASI_TEST_MODE`, `Test` runs exactly one command, chosen by
the lower-cased value `mode`: `tinygo test -target=wasi -v -tags "" ./...` when `mode`
is `tinygo`, and `go test -v -timeout=20m -tags <tags> ./...` otherwise, where `<tags>`
(the value of `buildTags`) is `libinjection_cgo` exactly when `mode` is `cgo` and empty
otherwise. Upper-casing the ASCII letters of the value changes nothing. -/
theorem Test_runs_one_command (lowerCase : Char → Char) (h : Host) (log : List Event) :
    let mode := stringsToLower lowerCase (osGetenv h "WASI_TEST_MODE")
    let tags := if mode = "cgo" then "libinjection_cgo" else ""
    let c : Command :=
      if mode = "tinygo" then ⟨"tinygo", ["test", "-target=wasi", "-v", "-tags", "", "./..."]⟩
      else ⟨"go", ["test", "-v", "-timeout=20m", "-tags", tags, "./..."]⟩
    buildTags lowerCase h = tags ∧
    (buildTags lowerCase h = "libinjection_cgo" ↔ mode = "cgo") ∧
    Test lowerCase h log = (h.runV log c, log ++ [Event.runV c (h.runV log c)]) ∧
    (∀ v : String, stringsToLower lowerCase (asciiUpper v) = stringsToLower lowerCase v) ∧
    stringsToLower lowerCase "CGO" = "cgo" ∧ stringsToLower lowerCase "Cgo" = "cgo" ∧
    stringsToLower lowerCase "TINYGO" = "tinygo" ∧
    stringsToLower lowerCase "TinyGo" = "tinygo" := by
  intro mode tags c
  have htags : buildTags lowerCase h = tags := buildTags_eq lowerCase h
  refine ⟨htags, ?_, ?_, stringsToLower_asciiUpper lowerCase, rfl, rfl, rfl, rfl⟩
  · rw [htags]
    by_cases hm : mode = "cgo"
    · simp [tags, hm]
    · simp only [tags, if_neg hm, hm, iff_false]
      decide
  · by_cases ht : mode = "tinygo"
    · have hc : mode ≠ "cgo" := by rw [ht]; decide
      have hte : tags = "" := if_neg hc
      have hce : c = ⟨"tinygo", ["test", "-target=wasi", "-v", "-tags", "", "./..."]⟩ :=
        if_pos ht
      rw [hce]
      unfold Test
      simp only [shRunV, htags, hte]
      rw [if_neg (not_not.mpr ht)]
    · have hce : c = ⟨"go", ["test", "-v", "-timeout=20m", "-tags", tags, "./..."]⟩ :=
        if_neg ht
      rw [hce]
      unfold Test
      simp only [shRunV, htags]
      rw [if_pos ht]

/-! ## Benchmark arguments -/

/-- The count argument is never a tags argument. -/
theorem isTagsArg_count (count : Int) : isTagsArg (sprintfD "-count=" count) = false := by
  have hd : (sprintfD "-count=" count).data = '-' :: 'c' :: ("ount=" ++ toString count).data := by
    simp [sprintfD, String.data_append]
  simp only [isTagsArg, hd]
  rfl

/-- The constants of the `iota` block are distinct. -/
theorem benchModeDefault_ne_CGO : ¬ benchModeDefault = benchModeCGO := by
  decide

/-- The list built by `benchArgs`, as a concatenation of its four parts. -/
theorem benchArgs_eq (pkg : String) (count : Int) (mode : benchMode) :
    benchArgs pkg count mode =
      ["test", "-bench=.", "-run=^$", "-v", "-timeout=60m"] ++
        (if count > 0 then [sprintfD "-count=" count] else []) ++
        (if mode = benchModeCGO then ["-tags=libinjection_cgo"]
          else if mode = benchModeDefault then ["-tags=libinjection_bench_default"]
          else []) ++ [pkg] := by
  unfold benchArgs
  by_cases hc : count > 0 <;> by_cases hm1 : mode = benchModeCGO <;>
    by_cases hm2 : mode = benchModeDefault <;>
    simp only [hc, hm1, hm2, benchModeDefault_ne_CGO, if_true, if_false, List.append_nil]

/-- The tags arguments in the list built by `benchArgs` for a package that is not one. -/
theorem benchArgs_filter (pkg : String) (count : Int) (mode : benchMode)
    (hpkg : isTagsArg pkg = false) :
    (benchArgs pkg count mode).filter isTagsArg =
      if mode = benchModeCGO then ["-tags=libinjection_cgo"]
      else if mode = benchModeDefault then ["-tags=libinjection_bench_default"]
      else [] := by
  have hbase : (["test", "-bench=.", "-run=^$", "-v", "-timeout=60m"] : List String).filter
      isTagsArg = [] := by decide
  have h1 : (["-tags=libinjection_cgo"] : List String).filter isTagsArg =
      ["-tags=libinjection_cgo"] := by decide
  have h2 : (["-tags=libinjection_bench_default"] : List String).filter isTagsArg =
      ["-tags=libinjection_bench_default"] := by decide
  have h3 : ([sprintfD "-count=" count] : List String).filter isTagsArg = [] := by
    rw [List.filter_cons_of_neg (by simp [isTagsArg_count count])]
    rfl
  have h4 : ([pkg] : List String).filter isTagsArg = [] := by
    rw [List.filter_cons_of_neg (by simp [hpkg])]
    rfl
  rw [benchArgs_eq, List.filter_append, List.filter_append, List.filter_append, hbase, h4]
  by_cases hc : count > 0 <;> by_cases hm1 : mode = benchModeCGO <;>
    by_cases hm2 : mode = benchModeDefault <;>
    simp only [hc, hm1, hm2, benchModeDefault_ne_CGO, if_true, if_false, h1, h2, h3,
      List.filter_nil, List.append_nil, List.nil_append]

/-- A package, that is an argument which is not a flag, is not a tags argument. -/
theorem isTagsArg_of_package (a : String) (ha : isFlagArg a = false) :
    isTagsArg a = false := by
  unfold isFlagArg at ha
  unfold isTagsArg
  rcases hd : a.data with _ | ⟨c, _ | ⟨d, rest⟩⟩
  · rfl
  · by_cases hc : c = '-'
    · subst hc
      rfl
    · have h1 : (c == '-') = false := by simpa using hc
      simp [List.isPrefixOf, h1]
  · rw [hd] at ha
    by_cases hc : c = '-'
    · subst hc
      simp at ha
    · have h1 : (c == '-') = false := by simpa using hc
      have h2 : ¬ '-' = c := fun e => hc e.symm
      simp [List.isPrefixOf, h1, h2]

/-- C3: for every package (an argument that is not a flag) and every count, the list
built by `benchArgs` ends with the package and selects the backend its mode names: it
contains no tags argument at all in mode `benchModeWazero`, exactly one,
`-tags=libinjection_cgo`, in mode `benchModeCGO`, and exactly one,
`-tags=libinjection_bench_default`, in mode `benchModeDefault`; `Bench`, `BenchCGO` and
`BenchDefault` run `go` once with the list built for `./...`, count 1 and these three
modes respectively. -/
theorem benchArgs_selects_backend (pkg : String) (count : Int)
    (hpkg : isFlagArg pkg = false) :
    (benchArgs pkg count benchModeWazero).filter isTagsArg = [] ∧
    (benchArgs pkg count benchModeCGO).filter isTagsArg = ["-tags=libinjection_cgo"] ∧
    (benchArgs pkg count benchModeDefault).filter isTagsArg =
      ["-tags=libinjection_bench_default"] ∧
    (∀ mode : benchMode, (benchArgs pkg count mode).getLast? = some pkg) ∧
    (∀ (h : Host) (log : List Event),
      Bench h log = shRunV h log "go" (benchArgs "./..." 1 benchModeWazero) ∧
      BenchCGO h log = shRunV h log "go" (benchArgs "./..." 1 benchModeCGO) ∧
      BenchDefault h log = shRunV h log "go" (benchArgs "./..." 1 benchModeDefault)) ∧
    benchArgs "./..." 1 benchModeWazero =
      ["test", "-bench=.", "-run=^$", "-v", "-timeout=60m", "-count=1", "./..."] ∧
    benchArgs "./..." 1 benchModeCGO =
      ["test", "-bench=.", "-run=^$", "-v", "-timeout=60m", "-count=1",
        "-tags=libinjection_cgo", "./..."] ∧
    benchArgs "./..." 1 benchModeDefault =
      ["test", "-bench=.", "-run=^$", "-v", "-timeout=60m", "-count=1",
        "-tags=libinjection_bench_default", "./..."] := by
  have hnt : isTagsArg pkg = false := isTagsArg_of_package pkg hpkg
  have hw := benchArgs_filter pkg count benchModeWazero hnt
  have hc := benchArgs_filter pkg count benchModeCGO hnt
  have hd := benchArgs_filter pkg count benchModeDefault hnt
  rw [if_neg (by decide), if_neg (by decide)] at hw
  rw [if_pos rfl] at hc
  rw [if_neg (by decide), if_pos rfl] at hd
  refine ⟨hw, hc, hd, ?_, ?_, by decide, by decide, by decide⟩
  · intro mode
    rw [benchArgs_eq, List.getLast?_append]
    rfl
  · intro h log
    exact ⟨rfl, rfl, rfl⟩

/-- C3 at the package `./wafbench` with count 5. -/
theorem benchArgs_selects_backend_witness :
    isFlagArg "./wafbench" = false ∧
    (benchArgs "./wafbench" 5 benchModeWazero).filter isTagsArg = [] ∧
    (benchArgs "./wafbench" 5 benchModeCGO).filter isTagsArg = ["-tags=libinjection_cgo"] ∧
    (benchArgs "./wafbench" 5 benchModeDefault).filter isTagsArg =
      ["-tags=libinjection_bench_default"] :=
  ⟨by decide, (benchArgs_selects_backend "./wafbench" 5 (by decide)).1,
    (benchArgs_selects_backend "./wafbench" 5 (by decide)).2.1,
    (benchArgs_selects_backend "./wafbench" 5 (by decide)).2.2.1⟩

/-! ## `BenchAll` -/

end Magefile

namespace Detection

/-- C6: empty input yields `matched=false` for both detectors, without error, whatever
the selected backend is (also one whose every call fails). -/
theorem detect_empty_not_matched (b : Backend) :
    (∃ r, detectSQLi b [] = Except.ok r ∧ r.matched = false) ∧
    (∃ r, detectXSS b [] = Except.ok r ∧ r.matched = false) :=
  ⟨⟨⟨false, none⟩, rfl, rfl⟩, ⟨⟨false, none⟩, rfl, rfl⟩⟩

end Detection
